import Mathlib

/-!
Verification of the data-cleaning core of the multinational retail data
centralisation pipeline (`data_cleaning.py`).

A pandas `DataFrame` is embedded as an ordered list of rows, each row an
ordered association list from column names to cell values.  Cell values are
modelled by `Value`: `na` stands for pandas missing values (`NaN` / `NaT` /
`None`), `str` for Python strings, `num` for numeric cells (floats are
modelled as rationals), `date` for pandas timestamps (year, month, day).

Each cleaning method of the `DataCleaning` class is translated as a function
`DF → DF × DF`: the first component is the state of the DataFrame object
that was passed in (or held in `self.data`) after the call returns — this
makes the copy-vs-in-place-mutation behaviour of each cleaner explicit —
and the second component is the returned cleaned DataFrame.
-/

namespace RetailETL

inductive Value where
  | na : Value
  | str (s : String) : Value
  | num (q : ℚ) : Value
  | date (y m d : ℕ) : Value
deriving DecidableEq, Repr

def Value.isNA : Value → Bool
  | Value.na => true
  | _ => false

def Value.isStr : Value → Bool
  | Value.str _ => true
  | _ => false

/-- A DataFrame row: an ordered association of column names to values. -/
abbrev Row := List (String × Value)

/-- A DataFrame: an ordered list of rows. -/
abbrev DF := List Row

/-- A row with no missing values (the rows `df.dropna()` keeps). -/
def rowComplete (r : Row) : Bool := r.all (fun p => !p.2.isNA)

/-- `df.dropna()`: keep only rows with no missing values. -/
def dropna (df : DF) : DF := df.filter rowComplete

/-- Column lookup inside a row (`row[c]`), `none` when the column is absent. -/
def getCol (r : Row) (c : String) : Option Value :=
  (r.find? (fun p => p.1 == c)).map (fun p => p.2)

/-- Column lookup returning the missing-value sentinel when absent. -/
def getV (r : Row) (c : String) : Value := (getCol r c).getD Value.na

/-- `df[c] = v` at row level: overwrite the column in place when present,
append it as the last column otherwise (pandas column-assignment order). -/
def setCol (r : Row) (c : String) (v : Value) : Row :=
  if r.any (fun p => p.1 == c) then
    r.map (fun p => if p.1 == c then (c, v) else p)
  else
    r ++ [(c, v)]

/-! ### The phone-number formatter of `clean_user_data`

`format_phone_number` (src/data_cleaning.py:49-83) first removes every
character outside `[0-9+(]` and then matches one of three anchored regular
expressions.  The relevant regex constructs (optional single characters,
fixed-length digit groups, a greedy `\d{0,4}` group) are embedded as
backtracking combinators in continuation-passing style; greedy alternatives
are tried first, exactly as Python's `re` engine does. -/

/-- Python's `\s` class (`[ \t\n\r\f\v]`). -/
def isSpaceCh (c : Char) : Bool :=
  c == ' ' || c == '\t' || c == '\n' || c == '\x0d' || c == '\x0c' || c == '\x0b'

/-- First-success choice between two alternatives of the backtracking match. -/
def orE {α : Type} (a b : Option α) : Option α :=
  match a with
  | some x => some x
  | none => b

/-- `p?` for a one-character class `p`: greedily try to consume one matching
character, falling back to consuming nothing. -/
def optC {α : Type} (p : Char → Bool) : List Char → (List Char → Option α) → Option α
  | [], k => k []
  | c :: r, k => if p c then orE (k r) (k (c :: r)) else k (c :: r)

/-- A literal character of the pattern. -/
def lit {α : Type} (a : Char) : List Char → (List Char → Option α) → Option α
  | [], _ => none
  | c :: r, k => if c = a then k r else none

/-- `(\d{n})`: exactly `n` digits, passed to the continuation as a capture. -/
def digitsN {α : Type} : Nat → List Char → (List Char → List Char → Option α) → Option α
  | 0, cs, k => k [] cs
  | _ + 1, [], _ => none
  | n + 1, c :: r, k =>
    if c.isDigit then digitsN n r (fun g rest => k (c :: g) rest) else none

/-- `(\d{0,n})`: up to `n` digits, greedy (longest alternative first). -/
def digitsUpTo {α : Type} : Nat → List Char → (List Char → List Char → Option α) → Option α
  | 0, cs, k => k [] cs
  | _ + 1, [], k => k [] []
  | n + 1, c :: r, k =>
    if c.isDigit then
      orE (digitsUpTo n r (fun g rest => k (c :: g) rest)) (k [] (c :: r))
    else k [] (c :: r)

/-- `re.sub(r'[^0-9+(]', '', phone)`: keep only digits, `+` and `(`. -/
def cleanNumber (s : List Char) : List Char :=
  s.filter (fun c => c.isDigit || c == '+' || c == '(')

/-- Right-strip of whitespace, auxiliary to `pyStrip`. -/
def rstripCh : List Char → List Char
  | [] => []
  | c :: r =>
    match rstripCh r with
    | [] => if isSpaceCh c then [] else [c]
    | d :: r' => c :: d :: r'

/-- Python's `str.strip()`: remove leading and trailing whitespace. -/
def pyStrip (l : List Char) : List Char :=
  rstripCh (l.dropWhile isSpaceCh)

/-- The GB pattern `^\+?44\s?\(?0?\)?(\d{2})\D?(\d{4})\D?(\d{0,4})$`,
returning the three captured groups of the first (greedy) match. -/
def gbMatch (cs : List Char) : Option (List Char × List Char × List Char) :=
  optC (fun c => c == '+') cs fun cs =>
  lit '4' cs fun cs =>
  lit '4' cs fun cs =>
  optC isSpaceCh cs fun cs =>
  optC (fun c => c == '(') cs fun cs =>
  optC (fun c => c == '0') cs fun cs =>
  optC (fun c => c == ')') cs fun cs =>
  digitsN 2 cs fun g1 cs =>
  optC (fun c => !c.isDigit) cs fun cs =>
  digitsN 4 cs fun g2 cs =>
  optC (fun c => !c.isDigit) cs fun cs =>
  digitsUpTo 4 cs fun g3 cs =>
  match cs with
  | [] => some (g1, g2, g3)
  | _ :: _ => none

/-- The US pattern `^\+?1\s?\(?(\d{3})\)?\D?(\d{3})\D?(\d{4})$`. -/
def usMatch (cs : List Char) : Option (List Char × List Char × List Char) :=
  optC (fun c => c == '+') cs fun cs =>
  lit '1' cs fun cs =>
  optC isSpaceCh cs fun cs =>
  optC (fun c => c == '(') cs fun cs =>
  digitsN 3 cs fun g1 cs =>
  optC (fun c => c == ')') cs fun cs =>
  optC (fun c => !c.isDigit) cs fun cs =>
  digitsN 3 cs fun g2 cs =>
  optC (fun c => !c.isDigit) cs fun cs =>
  digitsN 4 cs fun g3 cs =>
  match cs with
  | [] => some (g1, g2, g3)
  | _ :: _ => none

/-- The DE pattern `^\+?49\s?\(?0?(\d{2})\D?(\d{3})\D?(\d{4})$`. -/
def deMatch (cs : List Char) : Option (List Char × List Char × List Char) :=
  optC (fun c => c == '+') cs fun cs =>
  lit '4' cs fun cs =>
  lit '9' cs fun cs =>
  optC isSpaceCh cs fun cs =>
  optC (fun c => c == '(') cs fun cs =>
  optC (fun c => c == '0') cs fun cs =>
  digitsN 2 cs fun g1 cs =>
  optC (fun c => !c.isDigit) cs fun cs =>
  digitsN 3 cs fun g2 cs =>
  optC (fun c => !c.isDigit) cs fun cs =>
  digitsN 4 cs fun g3 cs =>
  match cs with
  | [] => some (g1, g2, g3)
  | _ :: _ => none

/-- `format_phone_number` (src/data_cleaning.py:49-83): clean the input,
match the country-specific pattern, require the joined captured groups to
hold exactly 10 characters, and rebuild the canonical string (with a final
`.strip()` on the GB branch only, as in the source). -/
def format_phone_number (phone_number country_code : String) : Option String :=
  let cn := cleanNumber phone_number.data
  if country_code = "GB" then
    match gbMatch cn with
    | some (g1, g2, g3) =>
      if g1.length + g2.length + g3.length = 10 then
        some (String.mk (pyStrip ("+44 ".data ++ g1 ++ [' '] ++ g2 ++ [' '] ++ g3)))
      else none
    | none => none
  else if country_code = "US" then
    match usMatch cn with
    | some (g1, g2, g3) =>
      if g1.length + g2.length + g3.length = 10 then
        some (String.mk ("+1 ".data ++ g1 ++ ['-'] ++ g2 ++ ['-'] ++ g3))
      else none
    | none => none
  else if country_code = "DE" then
    match deMatch cn with
    | some (g1, g2, g3) =>
      if g1.length + g2.length + g3.length = 10 then
        some (String.mk ("+49 ".data ++ g1 ++ [' '] ++ g2 ++ [' '] ++ g3))
      else none
    | none => none
  else none

/-! ### Date and number parsing -/

/-- Numeric value of a list of ASCII digits. -/
def digitsToNat (l : List Char) : ℕ :=
  l.foldl (fun a c => a * 10 + (c.toNat - 48)) 0

/-- `pd.to_datetime(·, errors='coerce')` is modelled on its ISO
`YYYY-MM-DD` subset (the only shape the repository's date columns carry);
anything else coerces to the missing value. -/
def parseYMD (s : String) : Option (ℕ × ℕ × ℕ) :=
  match s.data with
  | [y1, y2, y3, y4, '-', m1, m2, '-', d1, d2] =>
    if ([y1, y2, y3, y4, m1, m2, d1, d2]).all Char.isDigit then
      let y := digitsToNat [y1, y2, y3, y4]
      let m := digitsToNat [m1, m2]
      let d := digitsToNat [d1, d2]
      if 1 ≤ m ∧ m ≤ 12 ∧ 1 ≤ d ∧ d ≤ 31 then some (y, m, d) else none
    else none
  | _ => none

/-- Cell-level `pd.to_datetime(·, errors='coerce')`: strings are parsed,
already-parsed timestamps pass through, everything else becomes `NaT`. -/
def toDatetime (v : Value) : Value :=
  match v with
  | Value.str s =>
    match parseYMD s with
    | some (y, m, d) => Value.date y m d
    | none => Value.na
  | Value.date y m d => Value.date y m d
  | _ => Value.na

/-- `pd.to_datetime(·, format='%m/%y', errors='coerce')`: a `MM/YY` string
becomes the first day of that month; two-digit years map to 2000-2068 /
1969-1999 as in `strptime`.  Non-matching cells coerce to `NaT`. -/
def parseExpiry (v : Value) : Value :=
  match v with
  | Value.str s =>
    match s.data with
    | [m1, m2, '/', y1, y2] =>
      if ([m1, m2, y1, y2]).all Char.isDigit then
        let m := digitsToNat [m1, m2]
        let yy := digitsToNat [y1, y2]
        if 1 ≤ m ∧ m ≤ 12 then
          Value.date (if yy ≤ 68 then 2000 + yy else 1900 + yy) m 1
        else Value.na
      else Value.na
    | _ => Value.na
  | _ => Value.na

/-- Timestamp order (year, month, day lexicographically). -/
def dateLE (a b : ℕ × ℕ × ℕ) : Bool :=
  decide (a.1 < b.1) ||
    (decide (a.1 = b.1) &&
      (decide (a.2.1 < b.2.1) ||
        (decide (a.2.1 = b.2.1) && decide (a.2.2 ≤ b.2.2))))

/-- `df['expiry_date'] >= current_date` at cell level: comparisons against
`NaT` (or any non-timestamp) are false, so such rows are filtered out. -/
def expiryGE (v : Value) (now : ℕ × ℕ × ℕ) : Bool :=
  match v with
  | Value.date y m d => dateLE now (y, m, d)
  | _ => false

/-- Python `float()` on a string of digits and dots (the only shape it is
fed after `re.sub(r'[^\d.]', '', ·)`); `none` models a raised `ValueError`. -/
def parseFloatQ (cs : List Char) : Option ℚ :=
  match cs.splitOn '.' with
  | [a] =>
    if a.isEmpty then none
    else if a.all Char.isDigit then some (digitsToNat a) else none
  | [a, b] =>
    if (a ++ b).isEmpty then none
    else if (a ++ b).all Char.isDigit then
      some ((digitsToNat a : ℚ) + (digitsToNat b : ℚ) / (10 ^ b.length))
    else none
  | _ => none

/-- Python `round(x, 2)`.  Modelled over `ℚ` with round-half-up; the source
rounds IEEE doubles with round-half-even, which agrees everywhere except at
exact two-decimal ties, which no claim exercises. -/
def round2 (q : ℚ) : ℚ :=
  ((round (q * 100) : ℤ) : ℚ) / 100

/-- Python's substring test `needle in hay`. -/
def containsSub (needle : List Char) : List Char → Bool
  | [] => needle.isEmpty
  | c :: r => needle.isPrefixOf (c :: r) || containsSub needle r

/-! ### Weight conversion -/

/-- `convert_weight` (src/data_cleaning.py:175-191): on a string, lower-case
and strip it, look for a unit substring in the source's branch order
(`kg`, `g`, `ml`, `lb`, `oz`), extract the digits-and-dots magnitude,
convert to kilograms and round to 2 decimal places; an unrecognised unit
yields `None` (here `Value.na`).  Non-strings are returned unchanged.
The outer `none` models a `ValueError` raised by `float()`. -/
def convert_weight (weight : Value) : Option Value :=
  match weight with
  | Value.str s =>
    let w := pyStrip (s.data.map Char.toLower)
    let numPart := w.filter (fun c => c.isDigit || c == '.')
    if containsSub "kg".data w then
      (parseFloatQ numPart).map (fun q => Value.num (round2 q))
    else if containsSub "g".data w then
      (parseFloatQ numPart).map (fun q => Value.num (round2 (q / 1000)))
    else if containsSub "ml".data w then
      (parseFloatQ numPart).map (fun q => Value.num (round2 (q / 1000)))
    else if containsSub "lb".data w then
      (parseFloatQ numPart).map (fun q => Value.num (round2 (q * (453592 / 1000000))))
    else if containsSub "oz".data w then
      (parseFloatQ numPart).map (fun q => Value.num (round2 (q * (283495 / 10000000))))
    else some Value.na
  | v => some v

namespace DataCleaning

/-- The per-row transform of `df['date_of_birth'] = pd.to_datetime(...)`. -/
def dobT (r : Row) : Row := setCol r "date_of_birth" (toDatetime (getV r "date_of_birth"))

/-- The per-row transform of `df['join_date'] = pd.to_datetime(...)`. -/
def joinT (r : Row) : Row := setCol r "join_date" (toDatetime (getV r "join_date"))

/-- The fixed country → country-code lookup of `clean_user_data`;
`Series.map` sends values outside the mapping (and non-strings) to `NaN`. -/
def countryMap (v : Value) : Value :=
  match v with
  | Value.str "Germany" => Value.str "DE"
  | Value.str "United Kingdom" => Value.str "GB"
  | Value.str "United States" => Value.str "US"
  | _ => Value.na

/-- The per-row transform of `df['country_code'] = df['country'].map(...)`. -/
def ccT (r : Row) : Row := setCol r "country_code" (countryMap (getV r "country"))

/-- The cell `format_phone_number(row['phone_number'], row['country_code'])`
computes (the repository's data carries string phone numbers; on a
non-string the source would raise inside `re.sub`). -/
def phoneCell (r : Row) : Value :=
  match getV r "phone_number", getV r "country_code" with
  | Value.str p, Value.str cc =>
    match format_phone_number p cc with
    | some s => Value.str s
    | none => Value.na
  | _, _ => Value.na

/-- The per-row transform of the phone-formatting `df.apply(..., axis=1)`. -/
def phoneT (r : Row) : Row := setCol r "phone_number" (phoneCell r)

/-- `clean_user_data` (src/data_cleaning.py:22-90): on a copy of
`self.data`: drop rows with missing values, coerce the two date columns,
derive `country_code` and drop unmapped countries, format `phone_number`
and drop rows whose formatted number is null, reset the index. -/
def clean_user_data (data : DF) : DF × DF :=
  let df := dropna data
  let df := df.map dobT
  let df := df.map joinT
  let df := df.map ccT
  let df := df.filter (fun r => !(getV r "country_code").isNA)
  let df := df.map phoneT
  let df := df.filter (fun r => !(getV r "phone_number").isNA)
  (data, df)

/-- The card-number transform `re.sub(r'\D', '', str(x))` (the repository's
card numbers are strings; other cells are left to the `str(·)` fallback the
claims never exercise). -/
def stripCardDigits (v : Value) : Value :=
  match v with
  | Value.str s => Value.str (String.mk (s.data.filter Char.isDigit))
  | v => v

/-- The `valid_lengths` provider table of `clean_card_data`. -/
def valid_lengths (provider : String) : Option (List ℕ) :=
  if provider = "Diners Club / Carte Blanche" then some [14]
  else if provider = "American Express" then some [15]
  else if provider = "JCB 16 digit" then some [16]
  else if provider = "JCB 15 digit" then some [15]
  else if provider = "Maestro" then some [12, 13, 19]
  else if provider = "Mastercard" then some [16]
  else if provider = "Discover" then some [16]
  else if provider = "VISA 16 digit" then some [16]
  else if provider = "VISA 13 digit" then some [13]
  else if provider = "VISA 19 digit" then some [19]
  else none

/-- `is_valid_length` (src/data_cleaning.py:123-136): the card-number length
must belong to the provider's accepted set; unknown providers fail. -/
def is_valid_length (card provider : Value) : Bool :=
  match provider with
  | Value.str p =>
    match valid_lengths p with
    | some ls =>
      match card with
      | Value.str s => ls.contains s.length
      | _ => false
    | none => false
  | _ => false

/-- The per-row transform of `df['card_number'] = ...apply(re.sub(...))`. -/
def cardNumT (r : Row) : Row :=
  setCol r "card_number" (stripCardDigits (getV r "card_number"))

/-- The per-row transform of `df['expiry_date'] = pd.to_datetime(..., '%m/%y')`. -/
def expiryT (r : Row) : Row :=
  setCol r "expiry_date" (parseExpiry (getV r "expiry_date"))

/-- The per-row transform of `df['date_payment_confirmed'] = pd.to_datetime(...)`. -/
def payT (r : Row) : Row :=
  setCol r "date_payment_confirmed" (toDatetime (getV r "date_payment_confirmed"))

/-- `clean_card_data` (src/data_cleaning.py:92-150), on a copy of
`self.data`: drop missing rows, strip `card_number` to digits, keep rows
with a provider-valid length, parse `expiry_date` as `%m/%y` and keep rows
whose expiry is not before `now`, coerce `date_payment_confirmed` and drop
rows where it is null, reset the index. -/
def clean_card_data (now : ℕ × ℕ × ℕ) (data : DF) : DF × DF :=
  let df := dropna data
  let df := df.map cardNumT
  let df := df.filter (fun r => is_valid_length (getV r "card_number") (getV r "card_provider"))
  let df := df.map expiryT
  let df := df.filter (fun r => expiryGE (getV r "expiry_date") now)
  let df := df.map payT
  let df := df.filter (fun r => !(getV r "date_payment_confirmed").isNA)
  (data, df)

/-- `convert_product_weights` (src/data_cleaning.py:166-197): works on the
DataFrame passed as `products_df` WITHOUT copying it — the new `weight_kg`
column is assigned on it, the old `weight` column is dropped `inplace` and
`weight_kg` is renamed to `weight` `inplace`, and the same (mutated) object
is returned.  Both components of the resulting pair are therefore the same
DataFrame; the outer `none` models a `ValueError` escaping from
`convert_weight`, and the column-presence guard models the `KeyError` of
`drop(columns=['weight'])` on a frame with no `weight` column. -/
def convert_product_weights (products_df : DF) : Option (DF × DF) :=
  if products_df.all (fun r => r.any (fun p => p.1 == "weight")) then
    match products_df.mapM
        (fun r => (convert_weight (getV r "weight")).map (fun v => setCol r "weight_kg" v)) with
    | some rows =>
      let rows := rows.map (fun r => r.filter (fun p => !(p.1 == "weight")))
      let rows := rows.map (fun r => r.map (fun p => if p.1 == "weight_kg" then ("weight", p.2) else p))
      some (rows, rows)
    | none => none
  else none

/-- Cell-level `pd.to_numeric(·, errors='coerce')`, modelled on the numeric
shapes the products table carries: an optional sign followed by a
digits-and-dots literal; other strings (and non-numeric cells) coerce
to `NaN`. -/
def toNumeric (v : Value) : Value :=
  match v with
  | Value.num q => Value.num q
  | Value.str s =>
    match s.data with
    | '-' :: rest =>
      match parseFloatQ rest with
      | some q => Value.num (-q)
      | none => Value.na
    | cs =>
      match parseFloatQ cs with
      | some q => Value.num q
      | none => Value.na
  | _ => Value.na

/-- Whether the DataFrame has a column (pandas `c in df.columns`), read off
the leading row of the embedded table. -/
def dfHasCol (df : DF) (c : String) : Bool :=
  match df with
  | [] => false
  | r :: _ => r.any (fun p => p.1 == c)

/-- `clean_products_data` (src/data_cleaning.py:199-221): on a copy of the
argument: drop missing rows, strip whitespace from every string cell, and
coerce the `price` and `weight` columns to numbers when present. -/
def clean_products_data (products_df : DF) : DF × DF :=
  let df := dropna products_df
  let df := df.map (fun r => r.map (fun p =>
    match p.2 with
    | Value.str s => (p.1, Value.str (String.mk (pyStrip s.data)))
    | v => (p.1, v)))
  let df := if dfHasCol df "price"
    then df.map (fun r => setCol r "price" (toNumeric (getV r "price"))) else df
  let df := if dfHasCol df "weight"
    then df.map (fun r => setCol r "weight" (toNumeric (getV r "weight"))) else df
  (products_df, df)

/-- `clean_store_data` (src/data_cleaning.py:152-164): copies `self.data`,
drops rows with missing values, resets the index and returns the result.
First component: `self.data`'s original object after the call (untouched,
the method works on a copy). -/
def clean_store_data (data : DF) : DF × DF :=
  (data, dropna data)

/-- `clean_date_details_data` (src/data_cleaning.py:241-248): copies
`self.data`, drops rows with missing values, resets the index. -/
def clean_date_details_data (data : DF) : DF × DF :=
  (data, dropna data)

/-- The columns `clean_orders_data` removes. -/
def ordersDropCols : List String := ["first_name", "last_name", "1"]

/-- `clean_orders_data` (src/data_cleaning.py:223-239): copies `self.data`,
drops the columns `first_name`, `last_name`, `"1"` with `errors='ignore'`
(absent columns are tolerated), resets the index. -/
def clean_orders_data (data : DF) : DF × DF :=
  (data, data.map (fun r => r.filter (fun p => !(ordersDropCols.contains p.1))))

end DataCleaning

/-! ### Concrete rows used by the claims -/

/-- The store row of the spec's end-to-end scenario. -/
def storeRowEx : Row :=
  [("longitude", Value.str "12.34"), ("lat", Value.str "51.0"),
   ("latitude", Value.str "9.1"), ("staff_numbers", Value.str "12a"),
   ("opening_date", Value.str "2020-05-01")]

/-- A date-details row with a syntactically valid `date_uuid`. -/
def dateRowGood : Row :=
  [("date_uuid", Value.str "123e4567-e89b-12d3-a456-426614174000"),
   ("month", Value.str "7")]

/-- A date-details row whose `date_uuid` is not a UUID. -/
def dateRowBad : Row :=
  [("date_uuid", Value.str "not-a-uuid"), ("month", Value.str "8")]

/-- A user row with an unparsable `date_of_birth` that passes the country
and phone filters. -/
def userRowEx : Row :=
  [("date_of_birth", Value.str "not-a-date"), ("join_date", Value.str "2020-01-01"),
   ("country", Value.str "United States"), ("country_code", Value.str "XX"),
   ("phone_number", Value.str "+12025550173")]

/-- A products table with one string-weight row (the unit is unrecognised,
so the converted weight cell is null). -/
def productsEx : DF :=
  [[("weight", Value.str "3 stone"), ("product_name", Value.str "x")]]

/-- A concrete card row expiring in November 2026. -/
def cardRowEx : Row :=
  [("card_number", Value.str "4929-1234-5678-9012"),
   ("card_provider", Value.str "VISA 16 digit"),
   ("expiry_date", Value.str "11/26"),
   ("date_payment_confirmed", Value.str "2021-03-04")]

/-! ### Association-list lemmas -/

theorem getCol_map_set_self (t : Row) (c : String) (v : Value)
    (h : (t.any fun p => p.1 == c) = true) :
    getCol (t.map (fun p => if p.1 == c then (c, v) else p)) c = some v := by
  induction t with
  | nil => simp at h
  | cons p t ih =>
    cases hp : (p.1 == c) with
    | true => simp [getCol, List.find?, hp]
    | false =>
      simp only [List.any_cons, hp, Bool.false_or] at h
      simpa [getCol, List.find?, hp] using ih h

theorem getCol_append_set_self (t : Row) (c : String) (v : Value)
    (h : (t.any fun p => p.1 == c) = false) :
    getCol (t ++ [(c, v)]) c = some v := by
  induction t with
  | nil => simp [getCol, List.find?]
  | cons p t ih =>
    simp only [List.any_cons, Bool.or_eq_false_iff] at h
    simpa [getCol, List.find?, h.1] using ih h.2

theorem getCol_append_set_other (t : Row) (c c' : String) (v : Value)
    (hcc : (c == c') = false) :
    getCol (t ++ [(c, v)]) c' = getCol t c' := by
  induction t with
  | nil => simp [getCol, List.find?, hcc]
  | cons p t ih =>
    cases hpc : (p.1 == c') with
    | true => simp [getCol, List.find?, hpc]
    | false => simpa [getCol, List.find?, hpc] using ih

theorem getCol_setCol_self (r : Row) (c : String) (v : Value) :
    getCol (setCol r c v) c = some v := by
  unfold setCol
  split
  · exact getCol_map_set_self r c v (by assumption)
  · rename_i h
    exact getCol_append_set_self r c v (Bool.eq_false_iff.mpr h)

theorem getCol_map_set_other (t : Row) (c c' : String) (v : Value) (h : c' ≠ c) :
    getCol (t.map (fun p => if p.1 == c then (c, v) else p)) c' = getCol t c' := by
  have hcc : (c == c') = false := beq_eq_false_iff_ne.mpr (Ne.symm h)
  induction t with
  | nil => simp [getCol]
  | cons p t ih =>
    cases hp : (p.1 == c) with
    | true =>
      have hpc : (p.1 == c') = false := by rw [eq_of_beq hp]; exact hcc
      simpa [getCol, List.find?, hp, hpc, hcc] using ih
    | false =>
      cases hpc : (p.1 == c') with
      | true => simp [getCol, List.find?, hp, hpc]
      | false => simpa [getCol, List.find?, hp, hpc] using ih

theorem getCol_setCol_other (r : Row) (c c' : String) (v : Value) (h : c' ≠ c) :
    getCol (setCol r c v) c' = getCol r c' := by
  have hcc : (c == c') = false := beq_eq_false_iff_ne.mpr (Ne.symm h)
  unfold setCol
  split
  · exact getCol_map_set_other r c c' v h
  · exact getCol_append_set_other r c c' v hcc

theorem getCol_filterCols (r : Row) (bad : List String) (c : String) :
    getCol (r.filter (fun p => !(bad.contains p.1))) c =
      if c ∈ bad then none else getCol r c := by
  induction r with
  | nil => simp [getCol]
  | cons p t ih =>
    by_cases hp : p.1 ∈ bad
    · have h1 : (p :: t).filter (fun p => !(bad.contains p.1)) =
          t.filter (fun p => !(bad.contains p.1)) := by
        simp [List.filter_cons, hp]
      rw [h1, ih]
      by_cases hc : c ∈ bad
      · simp [hc]
      · have hpc : (p.1 == c) = false :=
          beq_eq_false_iff_ne.mpr (fun hh => hc (hh ▸ hp))
        simp [hc, getCol, List.find?, hpc]
    · have h1 : (p :: t).filter (fun p => !(bad.contains p.1)) =
          p :: t.filter (fun p => !(bad.contains p.1)) := by
        simp [List.filter_cons, hp]
      rw [h1]
      by_cases hpc : p.1 = c
      · have hc : c ∉ bad := fun hh => hp (hpc ▸ hh)
        simp [getCol, List.find?, hpc, hc]
      · have hpc' : (p.1 == c) = false := beq_eq_false_iff_ne.mpr hpc
        have h2 : getCol (p :: t.filter fun p => !(bad.contains p.1)) c =
            getCol (t.filter fun p => !(bad.contains p.1)) c := by
          simp [getCol, List.find?, hpc']
        have h3 : getCol (p :: t) c = getCol t c := by
          simp [getCol, List.find?, hpc']
        rw [h2, ih, h3]

/-! ### C1: the store cleaner and the spec's end-to-end store scenario -/

/-- C1, counterexample.  The claim predicts that for the scenario row the
store cleaner outputs the row with `latitude` moved to column index 3 and
`staff_numbers` reduced to `"12"`.  `clean_store_data` only drops
incomplete rows, so no output row has those properties. -/
theorem c1_counterexample :
    ¬ ∃ r ∈ (DataCleaning.clean_store_data [storeRowEx]).2,
        getCol r "staff_numbers" = some (Value.str "12") ∧
        (r.map Prod.fst).indexOf "latitude" = 3 := by
  decide

/-- C1, amended: on the scenario row (which is complete) the store cleaner
returns the row verbatim — `staff_numbers` keeps the value `"12a"` and
`latitude` stays at its input column index 2; no repositioning and no digit
stripping happen. -/
theorem c1_store_row_kept_verbatim :
    (DataCleaning.clean_store_data [storeRowEx]).2 = [storeRowEx] ∧
    getCol storeRowEx "staff_numbers" = some (Value.str "12a") ∧
    (storeRowEx.map Prod.fst).indexOf "latitude" = 2 := by
  decide

/-! ### C3: the date-details cleaner -/

/-- C3, counterexample.  The claim says a complete row with
`date_uuid = "not-a-uuid"` is absent from the cleaned output; in fact
`clean_date_details_data` performs no UUID check and keeps it. -/
theorem c3_counterexample :
    ∃ r ∈ (DataCleaning.clean_date_details_data [dateRowGood, dateRowBad]).2,
      getCol r "date_uuid" = some (Value.str "not-a-uuid") := by
  decide

/-- C3, amended: the date-details cleaner keeps exactly the rows with no
missing fields; no UUID validation is applied, so both the valid-UUID row
and the `"not-a-uuid"` row are retained. -/
theorem c3_keeps_exactly_complete_rows (df : DF) (r : Row) :
    r ∈ (DataCleaning.clean_date_details_data df).2 ↔
      (r ∈ df ∧ rowComplete r = true) := by
  simp [DataCleaning.clean_date_details_data, dropna, List.mem_filter]

/-! ### C2: unparsable dates in the user cleaner -/

theorem getV_setCol_other (r : Row) (c c' : String) (v : Value) (h : c' ≠ c) :
    getV (setCol r c v) c' = getV r c' := by
  unfold getV
  rw [getCol_setCol_other r c c' v h]

/-- C2, counterexample.  A complete user row whose `date_of_birth` does not
parse (but whose country and phone number pass their filters) is PRESENT in
the cleaned output, with the date cell nulled — the claim predicts the row
is absent. -/
theorem c2_counterexample :
    ∃ r ∈ (DataCleaning.clean_user_data [userRowEx]).2,
      getCol r "date_of_birth" = some Value.na := by
  decide

/-- C2, amended: an unparsable `date_of_birth`/`join_date` is set to null by
the `errors='coerce'` conversion, but the row is NOT dropped for that
reason: `dropna` runs before the conversion, and only the country and
phone filters remove rows afterwards.  Any complete row that passes those
two filters appears in the output with its date cells equal to the
(possibly null) parse results. -/
theorem c2_unparsable_dates_nulled_row_retained (df : DF) (r : Row)
    (h1 : r ∈ df) (h2 : rowComplete r = true)
    (h3 : (getV (DataCleaning.ccT (DataCleaning.joinT (DataCleaning.dobT r)))
      "country_code").isNA = false)
    (h4 : (getV (DataCleaning.phoneT (DataCleaning.ccT (DataCleaning.joinT
      (DataCleaning.dobT r)))) "phone_number").isNA = false) :
    DataCleaning.phoneT (DataCleaning.ccT (DataCleaning.joinT (DataCleaning.dobT r))) ∈
      (DataCleaning.clean_user_data df).2 ∧
    getCol (DataCleaning.phoneT (DataCleaning.ccT (DataCleaning.joinT
        (DataCleaning.dobT r)))) "date_of_birth" =
      some (toDatetime (getV r "date_of_birth")) ∧
    getCol (DataCleaning.phoneT (DataCleaning.ccT (DataCleaning.joinT
        (DataCleaning.dobT r)))) "join_date" =
      some (toDatetime (getV r "join_date")) := by
  refine ⟨?_, ?_, ?_⟩
  · simp only [DataCleaning.clean_user_data]
    apply List.mem_filter.mpr
    refine ⟨?_, by simp [h4]⟩
    apply List.mem_map.mpr
    refine ⟨DataCleaning.ccT (DataCleaning.joinT (DataCleaning.dobT r)), ?_, rfl⟩
    apply List.mem_filter.mpr
    refine ⟨?_, by simp [h3]⟩
    apply List.mem_map.mpr
    refine ⟨DataCleaning.joinT (DataCleaning.dobT r), ?_, rfl⟩
    apply List.mem_map.mpr
    refine ⟨DataCleaning.dobT r, ?_, rfl⟩
    apply List.mem_map.mpr
    refine ⟨r, ?_, rfl⟩
    exact List.mem_filter.mpr ⟨h1, h2⟩
  · unfold DataCleaning.phoneT DataCleaning.ccT DataCleaning.joinT DataCleaning.dobT
    rw [getCol_setCol_other _ _ _ _ (by decide),
      getCol_setCol_other _ _ _ _ (by decide),
      getCol_setCol_other _ _ _ _ (by decide),
      getCol_setCol_self]
  · unfold DataCleaning.phoneT DataCleaning.ccT DataCleaning.joinT DataCleaning.dobT
    rw [getCol_setCol_other _ _ _ _ (by decide),
      getCol_setCol_other _ _ _ _ (by decide),
      getCol_setCol_self,
      getV_setCol_other _ _ _ _ (by decide)]

/-- C2, witness: the concrete row with `date_of_birth = "not-a-date"`. -/
theorem c2_witness :
    DataCleaning.phoneT (DataCleaning.ccT (DataCleaning.joinT
        (DataCleaning.dobT userRowEx))) ∈
      (DataCleaning.clean_user_data [userRowEx]).2 ∧
    getCol (DataCleaning.phoneT (DataCleaning.ccT (DataCleaning.joinT
        (DataCleaning.dobT userRowEx)))) "date_of_birth" =
      some (toDatetime (getV userRowEx "date_of_birth")) ∧
    getCol (DataCleaning.phoneT (DataCleaning.ccT (DataCleaning.joinT
        (DataCleaning.dobT userRowEx)))) "join_date" =
      some (toDatetime (getV userRowEx "join_date")) :=
  c2_unparsable_dates_nulled_row_retained [userRowEx] userRowEx
    (by decide) (by decide) (by decide) (by decide)

/-! ### C6: weight-conversion examples -/

/-- C6: `convert_weight` maps `"500g"` to 0.5 kg, `"2kg"` to 2 kg, `"3lb"`
to 1.36 kg (= 34/25, i.e. 3 × 0.453592 rounded to 2 decimal places), and
the unrecognised unit `"3 stone"` to the null value. -/
theorem c6_weight_conversion_examples :
    convert_weight (Value.str "500g") = some (Value.num (1 / 2)) ∧
    convert_weight (Value.str "2kg") = some (Value.num 2) ∧
    convert_weight (Value.str "3lb") = some (Value.num (34 / 25)) ∧
    convert_weight (Value.str "3 stone") = some Value.na := by
  refine ⟨?_, ?_, ?_, rfl⟩
  · calc convert_weight (Value.str "500g")
        = some (Value.num (round2 (((500 : ℕ) : ℚ) / 1000))) := rfl
      _ = some (Value.num (1 / 2)) := by
          unfold round2; norm_num [round_eq]
  · calc convert_weight (Value.str "2kg")
        = some (Value.num (round2 ((2 : ℕ) : ℚ))) := rfl
      _ = some (Value.num 2) := by
          unfold round2; norm_num [round_eq]
  · calc convert_weight (Value.str "3lb")
        = some (Value.num (round2 (((3 : ℕ) : ℚ) * (453592 / 1000000)))) := rfl
      _ = some (Value.num (34 / 25)) := by
          unfold round2; norm_num [round_eq]

/-! ### C7: expired cards are excluded, future-month cards retained -/

theorem getV_setCol_self (r : Row) (c : String) (v : Value) :
    getV (setCol r c v) c = v := by
  unfold getV
  rw [getCol_setCol_self]
  rfl

theorem getCol_of_getV_date (r : Row) (c : String) (y m d : ℕ)
    (h : getV r c = Value.date y m d) : getCol r c = some (Value.date y m d) := by
  unfold getV at h
  cases hc : getCol r c with
  | none => rw [hc] at h; exact absurd h (by simp [Option.getD])
  | some v => rw [hc] at h; simp [Option.getD] at h; rw [h]

/-- C7: (a) every row of the cleaned card output carries a successfully
parsed `expiry_date` that is not strictly before the processing date `now`
— rows whose parsed expiry precedes `now` (or fails to parse) are
excluded; (b) every complete input row with a provider-valid card-number
length, an expiry parsing into a month strictly after `now`'s month, and a
parsable payment date is retained (as its transformed image). -/
theorem c7_expired_excluded_future_retained :
    (∀ (now : ℕ × ℕ × ℕ) (df : DF) (r : Row),
      r ∈ (DataCleaning.clean_card_data now df).2 →
      ∃ y m d, getCol r "expiry_date" = some (Value.date y m d) ∧
        dateLE now (y, m, d) = true) ∧
    (∀ (now : ℕ × ℕ × ℕ) (df : DF) (r : Row) (y m d : ℕ),
      r ∈ df → rowComplete r = true →
      DataCleaning.is_valid_length (getV (DataCleaning.cardNumT r) "card_number")
        (getV (DataCleaning.cardNumT r) "card_provider") = true →
      parseExpiry (getV r "expiry_date") = Value.date y m d →
      (now.1 < y ∨ (now.1 = y ∧ now.2.1 < m)) →
      (toDatetime (getV r "date_payment_confirmed")).isNA = false →
      DataCleaning.payT (DataCleaning.expiryT (DataCleaning.cardNumT r)) ∈
        (DataCleaning.clean_card_data now df).2) := by
  constructor
  · intro now df r hr
    simp only [DataCleaning.clean_card_data] at hr
    obtain ⟨hr, _⟩ := List.mem_filter.mp hr
    obtain ⟨r2, hr2, rfl⟩ := List.mem_map.mp hr
    obtain ⟨hr2, hq2⟩ := List.mem_filter.mp hr2
    cases hv : getV r2 "expiry_date" with
    | date y m d =>
      refine ⟨y, m, d, ?_, ?_⟩
      · unfold DataCleaning.payT
        rw [getCol_setCol_other _ _ _ _ (by decide)]
        exact getCol_of_getV_date r2 _ y m d hv
      · unfold expiryGE at hq2
        rw [hv] at hq2
        exact hq2
    | na => unfold expiryGE at hq2; rw [hv] at hq2; exact absurd hq2 (by simp)
    | str s => unfold expiryGE at hq2; rw [hv] at hq2; exact absurd hq2 (by simp)
    | num q => unfold expiryGE at hq2; rw [hv] at hq2; exact absurd hq2 (by simp)
  · intro now df r y m d h1 h2 h3 h4 h5 h6
    have hexp : getV (DataCleaning.expiryT (DataCleaning.cardNumT r)) "expiry_date" =
        Value.date y m d := by
      unfold DataCleaning.expiryT
      rw [getV_setCol_self]
      unfold DataCleaning.cardNumT
      rw [getV_setCol_other _ _ _ _ (by decide)]
      exact h4
    have hle : dateLE now (y, m, d) = true := by
      unfold dateLE
      rcases h5 with h | ⟨ha, hb⟩ <;> simp [*]
    have hpay : getV (DataCleaning.payT (DataCleaning.expiryT (DataCleaning.cardNumT r)))
        "date_payment_confirmed" =
        toDatetime (getV r "date_payment_confirmed") := by
      unfold DataCleaning.payT
      rw [getV_setCol_self]
      unfold DataCleaning.expiryT
      rw [getV_setCol_other _ _ _ _ (by decide)]
      unfold DataCleaning.cardNumT
      rw [getV_setCol_other _ _ _ _ (by decide)]
    simp only [DataCleaning.clean_card_data]
    refine List.mem_filter.mpr ⟨?_, ?_⟩
    · refine List.mem_map.mpr ⟨DataCleaning.expiryT (DataCleaning.cardNumT r), ?_, rfl⟩
      refine List.mem_filter.mpr ⟨?_, ?_⟩
      · refine List.mem_map.mpr ⟨DataCleaning.cardNumT r, ?_, rfl⟩
        refine List.mem_filter.mpr ⟨?_, h3⟩
        exact List.mem_map.mpr ⟨r, List.mem_filter.mpr ⟨h1, h2⟩, rfl⟩
      · simp [expiryGE, hexp, hle]
    · simp [hpay, h6]

/-- C7, witness: a card expiring 11/26 processed on 2025-10-12. -/
theorem c7_witness :
    (∃ y m d, getCol (DataCleaning.payT (DataCleaning.expiryT
        (DataCleaning.cardNumT cardRowEx))) "expiry_date" =
        some (Value.date y m d) ∧ dateLE (2025, 10, 12) (y, m, d) = true) ∧
    DataCleaning.payT (DataCleaning.expiryT (DataCleaning.cardNumT cardRowEx)) ∈
      (DataCleaning.clean_card_data (2025, 10, 12) [cardRowEx]).2 :=
  ⟨c7_expired_excluded_future_retained.1 (2025, 10, 12) [cardRowEx]
      (DataCleaning.payT (DataCleaning.expiryT (DataCleaning.cardNumT cardRowEx)))
      (by decide),
   c7_expired_excluded_future_retained.2 (2025, 10, 12) [cardRowEx] cardRowEx
      2026 11 1 (by decide) (by decide) (by decide) (by decide) (by decide) (by decide)⟩

/-! ### C8: the orders cleaner -/

/-- C8: `clean_orders_data` keeps every row (same count, same order) and,
in each row, removes exactly the columns `first_name`, `last_name` and
`"1"` — absent columns are tolerated — while every other column keeps its
value. -/
theorem c8_orders_drops_exactly_listed_columns (df : DF) (i : ℕ) (c : String) :
    ((DataCleaning.clean_orders_data df).2).length = df.length ∧
    (((DataCleaning.clean_orders_data df).2).get? i).bind (fun r => getCol r c) =
      (df.get? i).bind (fun r =>
        if c ∈ DataCleaning.ordersDropCols then none else getCol r c) := by
  constructor
  · simp [DataCleaning.clean_orders_data]
  · simp only [DataCleaning.clean_orders_data, List.get?_map]
    cases df.get? i with
    | none => rfl
    | some r => simpa using getCol_filterCols r DataCleaning.ordersDropCols c

/-! ### C9: copy-vs-in-place behaviour of the cleaners -/

/-- C9, counterexample.  `convert_product_weights` does NOT operate on a
copy: the DataFrame object passed in is mutated in place (converted
`weight` column, dropped and renamed columns), so after the call the input
differs from what was passed. -/
theorem c9_counterexample :
    DataCleaning.convert_product_weights productsEx =
      some ([[("product_name", Value.str "x"), ("weight", Value.na)]],
            [[("product_name", Value.str "x"), ("weight", Value.na)]]) ∧
    [[("product_name", Value.str "x"), ("weight", Value.na)]] ≠ productsEx := by
  decide

/-- C9, amended: every cleaner that starts from `self.data.copy()` or
copies its argument (`clean_user_data`, `clean_card_data`,
`clean_store_data`, `clean_orders_data`, `clean_date_details_data`,
`clean_products_data`) leaves the input DataFrame unchanged, whereas
`convert_product_weights` mutates the DataFrame it is given and returns
that same object (both components of its result coincide). -/
theorem c9_cleaners_copy_semantics (df : DF) (now : ℕ × ℕ × ℕ) :
    (DataCleaning.clean_user_data df).1 = df ∧
    (DataCleaning.clean_card_data now df).1 = df ∧
    (DataCleaning.clean_store_data df).1 = df ∧
    (DataCleaning.clean_orders_data df).1 = df ∧
    (DataCleaning.clean_date_details_data df).1 = df ∧
    (DataCleaning.clean_products_data df).1 = df ∧
    (DataCleaning.convert_product_weights df).map Prod.fst =
      (DataCleaning.convert_product_weights df).map Prod.snd := by
  refine ⟨rfl, rfl, rfl, rfl, rfl, rfl, ?_⟩
  unfold DataCleaning.convert_product_weights
  split
  · cases List.mapM (fun r =>
        (convert_weight (getV r "weight")).map (fun v => setCol r "weight_kg" v)) df with
    | none => rfl
    | some rows => rfl
  · rfl

/-! ### C10: non-string weights pass through unchanged -/

/-- C10: `convert_weight` (and hence `convert_product_weights` on a table
whose weight cell is not a string) returns non-string weights unchanged —
they are neither converted, rounded, nor nulled. -/
theorem c10_nonstring_weight_unchanged (v : Value) (h : v.isStr = false) :
    DataCleaning.convert_product_weights [[("weight", v)]] =
      some ([[("weight", v)]], [[("weight", v)]]) := by
  cases v with
  | str s => simp [Value.isStr] at h
  | na => rfl
  | num q => rfl
  | date y m d => rfl

/-- C10, witness at the numeric weight 3. -/
theorem c10_witness :
    (Value.num 3).isStr = false ∧
    DataCleaning.convert_product_weights [[("weight", Value.num 3)]] =
      some ([[("weight", Value.num 3)]], [[("weight", Value.num 3)]]) :=
  ⟨by decide, c10_nonstring_weight_unchanged (Value.num 3) (by decide)⟩

/-! ### Soundness of the regex combinators

A successful backtracking match must have gone through each element of the
pattern; in particular every captured digit group has the length and the
digit-only content the pattern prescribes. -/

theorem orE_sound {α : Type} {a b : Option α} {x : α} (h : orE a b = some x) :
    a = some x ∨ b = some x := by
  cases a with
  | some y => exact Or.inl h
  | none => exact Or.inr h

theorem orE_some_left {α : Type} {a : Option α} (b : Option α) {x : α}
    (h : a = some x) : orE a b = some x := by
  rw [h]; rfl

theorem optC_sound {α : Type} {p : Char → Bool} {cs : List Char}
    {k : List Char → Option α} {x : α} (h : optC p cs k = some x) :
    ∃ cs', k cs' = some x := by
  cases cs with
  | nil => exact ⟨[], h⟩
  | cons c r =>
    have h' : (if p c then orE (k r) (k (c :: r)) else k (c :: r)) = some x := h
    by_cases hp : p c
    · rw [if_pos hp] at h'
      rcases orE_sound h' with h' | h'
      exacts [⟨r, h'⟩, ⟨c :: r, h'⟩]
    · rw [if_neg hp] at h'
      exact ⟨c :: r, h'⟩

theorem lit_sound {α : Type} {a : Char} {cs : List Char}
    {k : List Char → Option α} {x : α} (h : lit a cs k = some x) :
    ∃ r, k r = some x := by
  cases cs with
  | nil => exact absurd h (by simp [lit])
  | cons c r =>
    have h' : (if c = a then k r else none) = some x := h
    by_cases hc : c = a
    · rw [if_pos hc] at h'
      exact ⟨r, h'⟩
    · rw [if_neg hc] at h'
      exact absurd h' (by simp)

theorem digitsN_sound {α : Type} :
    ∀ {n : ℕ} {cs : List Char} {k : List Char → List Char → Option α} {x : α},
    digitsN n cs k = some x →
    ∃ g rest, g.length = n ∧ g.all Char.isDigit = true ∧ k g rest = some x := by
  intro n
  induction n with
  | zero => exact fun h => ⟨[], _, rfl, rfl, h⟩
  | succ n ih =>
    intro cs k x h
    cases cs with
    | nil => exact absurd h (by simp [digitsN])
    | cons c r =>
      have h' : (if c.isDigit then digitsN n r (fun g rest => k (c :: g) rest)
          else none) = some x := h
      by_cases hc : c.isDigit
      · rw [if_pos hc] at h'
        obtain ⟨g, rest, hlen, hall, hk⟩ := ih h'
        exact ⟨c :: g, rest, by simp [hlen], by simp [List.all_cons, hc, hall], hk⟩
      · rw [if_neg hc] at h'
        exact absurd h' (by simp)

theorem digitsUpTo_sound {α : Type} :
    ∀ {n : ℕ} {cs : List Char} {k : List Char → List Char → Option α} {x : α},
    digitsUpTo n cs k = some x →
    ∃ g rest, g.length ≤ n ∧ g.all Char.isDigit = true ∧ k g rest = some x := by
  intro n
  induction n with
  | zero => exact fun h => ⟨[], _, Nat.le_refl 0, rfl, h⟩
  | succ n ih =>
    intro cs k x h
    cases cs with
    | nil => exact ⟨[], [], by simp, rfl, h⟩
    | cons c r =>
      have h' : (if c.isDigit then
          orE (digitsUpTo n r (fun g rest => k (c :: g) rest)) (k [] (c :: r))
          else k [] (c :: r)) = some x := h
      by_cases hc : c.isDigit
      · rw [if_pos hc] at h'
        rcases orE_sound h' with h' | h'
        · obtain ⟨g, rest, hlen, hall, hk⟩ := ih h'
          exact ⟨c :: g, rest, by simpa using Nat.succ_le_succ hlen,
            by simp [List.all_cons, hc, hall], hk⟩
        · exact ⟨[], c :: r, by simp, rfl, h'⟩
      · rw [if_neg hc] at h'
        exact ⟨[], c :: r, by simp, rfl, h'⟩

theorem gbMatch_groups {cs g1 g2 g3 : List Char}
    (h : gbMatch cs = some (g1, g2, g3)) :
    g1.length = 2 ∧ g1.all Char.isDigit = true ∧
    g2.length = 4 ∧ g2.all Char.isDigit = true ∧
    g3.length ≤ 4 ∧ g3.all Char.isDigit = true := by
  unfold gbMatch at h
  obtain ⟨cs1, h⟩ := optC_sound h
  obtain ⟨cs2, h⟩ := lit_sound h
  obtain ⟨cs3, h⟩ := lit_sound h
  obtain ⟨cs4, h⟩ := optC_sound h
  obtain ⟨cs5, h⟩ := optC_sound h
  obtain ⟨cs6, h⟩ := optC_sound h
  obtain ⟨cs7, h⟩ := optC_sound h
  obtain ⟨ga, cs8, hal, haa, h⟩ := digitsN_sound h
  obtain ⟨cs9, h⟩ := optC_sound h
  obtain ⟨gb, cs10, hbl, hba, h⟩ := digitsN_sound h
  obtain ⟨cs11, h⟩ := optC_sound h
  obtain ⟨gc, cs12, hcl, hca, h⟩ := digitsUpTo_sound h
  cases cs12 with
  | cons d t => exact absurd h (by simp)
  | nil =>
    simp only [Option.some.injEq, Prod.mk.injEq] at h
    obtain ⟨e1, e2, e3⟩ := h
    subst e1; subst e2; subst e3
    exact ⟨hal, haa, hbl, hba, hcl, hca⟩

theorem usMatch_groups {cs g1 g2 g3 : List Char}
    (h : usMatch cs = some (g1, g2, g3)) :
    g1.length = 3 ∧ g1.all Char.isDigit = true ∧
    g2.length = 3 ∧ g2.all Char.isDigit = true ∧
    g3.length = 4 ∧ g3.all Char.isDigit = true := by
  unfold usMatch at h
  obtain ⟨cs1, h⟩ := optC_sound h
  obtain ⟨cs2, h⟩ := lit_sound h
  obtain ⟨cs3, h⟩ := optC_sound h
  obtain ⟨cs4, h⟩ := optC_sound h
  obtain ⟨ga, cs5, hal, haa, h⟩ := digitsN_sound h
  obtain ⟨cs6, h⟩ := optC_sound h
  obtain ⟨cs7, h⟩ := optC_sound h
  obtain ⟨gb, cs8, hbl, hba, h⟩ := digitsN_sound h
  obtain ⟨cs9, h⟩ := optC_sound h
  obtain ⟨gc, cs10, hcl, hca, h⟩ := digitsN_sound h
  cases cs10 with
  | cons d t => exact absurd h (by simp)
  | nil =>
    simp only [Option.some.injEq, Prod.mk.injEq] at h
    obtain ⟨e1, e2, e3⟩ := h
    subst e1; subst e2; subst e3
    exact ⟨hal, haa, hbl, hba, hcl, hca⟩

theorem deMatch_groups {cs g1 g2 g3 : List Char}
    (h : deMatch cs = some (g1, g2, g3)) :
    g1.length = 2 ∧ g2.length = 3 ∧ g3.length = 4 := by
  unfold deMatch at h
  obtain ⟨cs1, h⟩ := optC_sound h
  obtain ⟨cs2, h⟩ := lit_sound h
  obtain ⟨cs3, h⟩ := lit_sound h
  obtain ⟨cs4, h⟩ := optC_sound h
  obtain ⟨cs5, h⟩ := optC_sound h
  obtain ⟨cs6, h⟩ := optC_sound h
  obtain ⟨ga, cs7, hal, haa, h⟩ := digitsN_sound h
  obtain ⟨cs8, h⟩ := optC_sound h
  obtain ⟨gb, cs9, hbl, hba, h⟩ := digitsN_sound h
  obtain ⟨cs10, h⟩ := optC_sound h
  obtain ⟨gc, cs11, hcl, hca, h⟩ := digitsN_sound h
  cases cs11 with
  | cons d t => exact absurd h (by simp)
  | nil =>
    simp only [Option.some.injEq, Prod.mk.injEq] at h
    obtain ⟨e1, e2, e3⟩ := h
    subst e1; subst e2; subst e3
    exact ⟨hal, hbl, hcl⟩

/-- The DE branch can never fire: its three captured groups always hold
2 + 3 + 4 = 9 digits, but the code demands 10. -/
theorem format_DE_none (p : String) : format_phone_number p "DE" = none := by
  simp only [format_phone_number]
  rw [if_neg (by decide), if_neg (by decide), if_pos trivial]
  cases hm : deMatch (cleanNumber p.data) with
  | none => rfl
  | some t =>
    obtain ⟨g1, g2, g3⟩ := t
    obtain ⟨h1, h2, h3⟩ := deMatch_groups hm
    show (if g1.length + g2.length + g3.length = 10 then
        some (String.mk ("+49 ".data ++ g1 ++ [' '] ++ g2 ++ [' '] ++ g3))
      else none) = none
    rw [if_neg (by omega)]

/-! ### Evaluation lemmas for the matchers on canonical inputs -/

theorem optC_pos_of {α : Type} {p : Char → Bool} {c : Char} {r : List Char}
    {k : List Char → Option α} {x : α} (h : p c = true) (hk : k r = some x) :
    optC p (c :: r) k = some x := by
  show (if p c then orE (k r) (k (c :: r)) else k (c :: r)) = some x
  rw [if_pos h]
  exact orE_some_left _ hk

theorem optC_neg_of {α : Type} {p : Char → Bool} {c : Char} {r : List Char}
    {k : List Char → Option α} {x : α} (h : p c = false) (hk : k (c :: r) = some x) :
    optC p (c :: r) k = some x := by
  show (if p c then orE (k r) (k (c :: r)) else k (c :: r)) = some x
  rw [if_neg (by simp [h])]
  exact hk

theorem lit_of {α : Type} {a : Char} {r : List Char}
    {k : List Char → Option α} {x : α} (hk : k r = some x) :
    lit a (a :: r) k = some x := by
  show (if a = a then k r else none) = some x
  rw [if_pos rfl]
  exact hk

theorem digitsN_exact {α : Type} :
    ∀ {n : ℕ} (g rest : List Char) (k : List Char → List Char → Option α),
    g.length = n → g.all Char.isDigit = true →
    digitsN n (g ++ rest) k = k g rest := by
  intro n
  induction n with
  | zero =>
    intro g rest k hl _
    rw [List.length_eq_zero] at hl
    subst hl
    rfl
  | succ n ih =>
    intro g rest k hl ha
    cases g with
    | nil => simp at hl
    | cons c g =>
      simp only [List.all_cons, Bool.and_eq_true] at ha
      simp only [List.cons_append]
      show (if c.isDigit then digitsN n (g ++ rest) (fun g' r' => k (c :: g') r')
          else none) = k (c :: g) rest
      rw [if_pos ha.1]
      exact ih g rest _ (by simpa using hl) ha.2

theorem digitsN_of {α : Type} {n : ℕ} (g rest : List Char)
    (k : List Char → List Char → Option α) {x : α}
    (hl : g.length = n) (ha : g.all Char.isDigit = true)
    (hk : k g rest = some x) : digitsN n (g ++ rest) k = some x := by
  rw [digitsN_exact g rest k hl ha]
  exact hk

theorem digitsUpTo_all {α : Type} :
    ∀ {n : ℕ} (g : List Char) (k : List Char → List Char → Option α) {x : α},
    g.length ≤ n → g.all Char.isDigit = true → k g [] = some x →
    digitsUpTo n g k = some x := by
  intro n
  induction n with
  | zero =>
    intro g k x hl _ hk
    have hg : g = [] := List.eq_nil_of_length_eq_zero (Nat.le_zero.mp hl)
    subst hg
    exact hk
  | succ n ih =>
    intro g k x hl ha hk
    cases g with
    | nil => exact hk
    | cons c g =>
      simp only [List.all_cons, Bool.and_eq_true] at ha
      show (if c.isDigit then
          orE (digitsUpTo n g (fun g' r' => k (c :: g') r')) (k [] (c :: g))
          else k [] (c :: g)) = some x
      rw [if_pos ha.1]
      exact orE_some_left _ (ih g _ (by simpa using hl) ha.2 hk)

theorem beq_false_of_digit (c d : Char) (h : c.isDigit = true)
    (hd : d.isDigit = false) : (c == d) = false := by
  cases hcd : c == d with
  | false => rfl
  | true =>
    rw [eq_of_beq hcd] at h
    rw [h] at hd
    exact absurd hd (by simp)

theorem isSpaceCh_false_of_digit {c : Char} (h : c.isDigit = true) :
    isSpaceCh c = false := by
  unfold isSpaceCh
  rw [beq_false_of_digit c ' ' h (by decide), beq_false_of_digit c '\t' h (by decide),
    beq_false_of_digit c '\n' h (by decide), beq_false_of_digit c '\x0d' h (by decide),
    beq_false_of_digit c '\x0c' h (by decide), beq_false_of_digit c '\x0b' h (by decide)]
  rfl

theorem exists_len2 (l : List Char) (h : l.length = 2) : ∃ a b, l = [a, b] := by
  cases l with
  | nil => simp at h
  | cons a t =>
    cases t with
    | nil => simp at h
    | cons b t2 =>
      cases t2 with
      | nil => exact ⟨a, b, rfl⟩
      | cons c t3 =>
        simp only [List.length_cons, List.length_nil] at h
        omega

theorem exists_len3 (l : List Char) (h : l.length = 3) : ∃ a b c, l = [a, b, c] := by
  cases l with
  | nil => simp at h
  | cons a t =>
    obtain ⟨b, c, rfl⟩ := exists_len2 t (by simpa using h)
    exact ⟨a, b, c, rfl⟩

theorem exists_len4 (l : List Char) (h : l.length = 4) :
    ∃ a b c d, l = [a, b, c, d] := by
  cases l with
  | nil => simp at h
  | cons a t =>
    obtain ⟨b, c, d, rfl⟩ := exists_len3 t (by simpa using h)
    exact ⟨a, b, c, d, rfl⟩

theorem gbMatch_canonical (a b e1 e2 e3 e4 f1 f2 f3 f4 : Char)
    (ha : a.isDigit = true) (ha0 : (a == '0') = false) (hb : b.isDigit = true)
    (he1 : e1.isDigit = true) (he2 : e2.isDigit = true)
    (he3 : e3.isDigit = true) (he4 : e4.isDigit = true)
    (hf1 : f1.isDigit = true) (hf2 : f2.isDigit = true)
    (hf3 : f3.isDigit = true) (hf4 : f4.isDigit = true) :
    gbMatch ('+' :: '4' :: '4' :: a :: b :: e1 :: e2 :: e3 :: e4 ::
        f1 :: f2 :: f3 :: f4 :: []) =
      some ([a, b], [e1, e2, e3, e4], [f1, f2, f3, f4]) := by
  unfold gbMatch
  refine optC_pos_of (by decide) ?_
  refine lit_of ?_
  refine lit_of ?_
  refine optC_neg_of (isSpaceCh_false_of_digit ha) ?_
  refine optC_neg_of (beq_false_of_digit a '(' ha (by decide)) ?_
  refine optC_neg_of ha0 ?_
  refine optC_neg_of (beq_false_of_digit a ')' ha (by decide)) ?_
  refine digitsN_of [a, b] _ _ rfl (by simp [ha, hb]) ?_
  refine optC_neg_of (by rw [he1]; rfl) ?_
  refine digitsN_of [e1, e2, e3, e4] _ _ rfl (by simp [he1, he2, he3, he4]) ?_
  refine optC_neg_of (by rw [hf1]; rfl) ?_
  refine digitsUpTo_all _ _ (by simp) (by simp [hf1, hf2, hf3, hf4]) ?_
  rfl

theorem usMatch_canonical (a1 a2 a3 b1 b2 b3 f1 f2 f3 f4 : Char)
    (ha1 : a1.isDigit = true) (ha2 : a2.isDigit = true) (ha3 : a3.isDigit = true)
    (hb1 : b1.isDigit = true) (hb2 : b2.isDigit = true) (hb3 : b3.isDigit = true)
    (hf1 : f1.isDigit = true) (hf2 : f2.isDigit = true)
    (hf3 : f3.isDigit = true) (hf4 : f4.isDigit = true) :
    usMatch ('+' :: '1' :: a1 :: a2 :: a3 :: b1 :: b2 :: b3 ::
        f1 :: f2 :: f3 :: f4 :: []) =
      some ([a1, a2, a3], [b1, b2, b3], [f1, f2, f3, f4]) := by
  unfold usMatch
  refine optC_pos_of (by decide) ?_
  refine lit_of ?_
  refine optC_neg_of (isSpaceCh_false_of_digit ha1) ?_
  refine optC_neg_of (beq_false_of_digit a1 '(' ha1 (by decide)) ?_
  refine digitsN_of [a1, a2, a3] _ _ rfl (by simp [ha1, ha2, ha3]) ?_
  refine optC_neg_of (beq_false_of_digit b1 ')' hb1 (by decide)) ?_
  refine optC_neg_of (by rw [hb1]; rfl) ?_
  refine digitsN_of [b1, b2, b3] _ _ rfl (by simp [hb1, hb2, hb3]) ?_
  refine optC_neg_of (by rw [hf1]; rfl) ?_
  refine digitsN_of [f1, f2, f3, f4] [] _ rfl (by simp [hf1, hf2, hf3, hf4]) ?_
  rfl

/-- C5: the DE formatting rule of `format_phone_number` is UNSATISFIABLE,
contradicting the claim that some DE input yields `"+49 AA BBB CCCC"`: the
regex captures 2 + 3 + 4 = 9 digits while the guard demands exactly 10, so
the `"+49 ..."` output line is unreachable and every input returns null.
The first conjunct evaluates the code at the spec-conforming failing input
`"+49 30 123 4567"`. -/
theorem c5_de_formatting_rule_unsatisfiable :
    format_phone_number "+49 30 123 4567" "DE" = none ∧
    ∀ p : String, format_phone_number p "DE" = none :=
  ⟨format_DE_none _, format_DE_none⟩

/-! ### C4: idempotence of the phone formatter -/

/-- C4, counterexample.  The GB input `"+44(07(1234(5678"` is accepted (the
`(` characters survive cleaning and let the regex's `0?` backtrack to
capture an area group starting with `0`), producing `"+44 07 1234 5678"`
— but reformatting that canonical output returns null, because on the
re-cleaned digits the greedy `0?` now swallows the leading `0` and the
captured groups total only 9 digits.  Formatting is therefore NOT
idempotent on all accepted inputs. -/
theorem c4_counterexample :
    format_phone_number "+44(07(1234(5678" "GB" = some "+44 07 1234 5678" ∧
    format_phone_number "+44 07 1234 5678" "GB" = none := by
  decide

/-- C4, amended: formatting is idempotent for every accepted US input, and
for every accepted GB input whose canonical output has an area code that
does not start with `'0'` (character at index 4); the DE branch accepts
nothing, so the statement is vacuous there.  Equivalently: for every
accepted input, if the output's area group does not begin with `0` (always
true for US), reformatting the canonical output returns it unchanged. -/
theorem c4_phone_formatting_idempotent (p cc s : String)
    (h : format_phone_number p cc = some s)
    (h0 : cc = "GB" → s.data.get? 4 ≠ some '0') :
    format_phone_number s cc = some s := by
  by_cases hGB : cc = "GB"
  · subst hGB
    simp only [format_phone_number] at h
    rw [if_pos trivial] at h
    cases hm : gbMatch (cleanNumber p.data) with
    | none => rw [hm] at h; exact absurd h (by simp)
    | some t =>
      obtain ⟨g1, g2, g3⟩ := t
      rw [hm] at h
      have h' : (if g1.length + g2.length + g3.length = 10 then
          some (String.mk (pyStrip ("+44 ".data ++ g1 ++ [' '] ++ g2 ++ [' '] ++ g3)))
          else none) = some s := h
      by_cases hlen : g1.length + g2.length + g3.length = 10
      · rw [if_pos hlen] at h'
        obtain ⟨hg1l, hg1a, hg2l, hg2a, hg3l, hg3a⟩ := gbMatch_groups hm
        have hg3l4 : g3.length = 4 := by omega
        obtain ⟨a, b, rfl⟩ := exists_len2 g1 hg1l
        obtain ⟨e1, e2, e3, e4, rfl⟩ := exists_len4 g2 hg2l
        obtain ⟨f1, f2, f3, f4, rfl⟩ := exists_len4 g3 hg3l4
        simp only [List.all_cons, List.all_nil, Bool.and_eq_true, and_true] at hg1a hg2a hg3a
        obtain ⟨ha, hb⟩ := hg1a
        obtain ⟨he1, he2, he3, he4⟩ := hg2a
        obtain ⟨hf1, hf2, hf3, hf4⟩ := hg3a
        have hstrip : pyStrip ("+44 ".data ++ [a, b] ++ [' '] ++ [e1, e2, e3, e4] ++
            [' '] ++ [f1, f2, f3, f4]) =
            '+' :: '4' :: '4' :: ' ' :: a :: b :: ' ' :: e1 :: e2 :: e3 :: e4 ::
              ' ' :: f1 :: f2 :: f3 :: f4 :: [] := by
          show pyStrip ('+' :: '4' :: '4' :: ' ' :: a :: b :: ' ' :: e1 :: e2 :: e3 ::
            e4 :: ' ' :: f1 :: f2 :: f3 :: f4 :: []) = _
          simp [pyStrip, List.dropWhile, rstripCh, isSpaceCh_false_of_digit hf4,
            show isSpaceCh '+' = false from by decide]
        rw [hstrip] at h'
        have hs := Option.some.inj h'
        subst hs
        have ha0 : (a == '0') = false := by
          have h4 := h0 rfl
          have hidx : (String.mk ('+' :: '4' :: '4' :: ' ' :: a :: b :: ' ' :: e1 ::
              e2 :: e3 :: e4 :: ' ' :: f1 :: f2 :: f3 :: f4 :: [])).data.get? 4 =
              some a := rfl
          rw [hidx] at h4
          cases haz : a == '0' with
          | false => rfl
          | true => exact absurd (by rw [eq_of_beq haz]) h4
        simp only [format_phone_number]
        rw [if_pos trivial]
        have hclean : cleanNumber (String.mk ('+' :: '4' :: '4' :: ' ' :: a :: b ::
            ' ' :: e1 :: e2 :: e3 :: e4 :: ' ' :: f1 :: f2 :: f3 :: f4 :: [])).data =
            '+' :: '4' :: '4' :: a :: b :: e1 :: e2 :: e3 :: e4 ::
              f1 :: f2 :: f3 :: f4 :: [] := by
          simp [cleanNumber, ha, hb, he1, he2, he3, he4, hf1, hf2, hf3, hf4]
        rw [hclean,
          gbMatch_canonical a b e1 e2 e3 e4 f1 f2 f3 f4 ha ha0 hb
            he1 he2 he3 he4 hf1 hf2 hf3 hf4]
        show (if ([a, b] : List Char).length + ([e1, e2, e3, e4] : List Char).length +
            ([f1, f2, f3, f4] : List Char).length = 10 then
            some (String.mk (pyStrip ("+44 ".data ++ [a, b] ++ [' '] ++
              [e1, e2, e3, e4] ++ [' '] ++ [f1, f2, f3, f4])))
          else none) = _
        rw [if_pos (by simp), hstrip]
      · rw [if_neg hlen] at h'
        exact absurd h' (by simp)
  · by_cases hUS : cc = "US"
    · subst hUS
      simp only [format_phone_number] at h
      rw [if_neg (by decide), if_pos trivial] at h
      cases hm : usMatch (cleanNumber p.data) with
      | none => rw [hm] at h; exact absurd h (by simp)
      | some t =>
        obtain ⟨g1, g2, g3⟩ := t
        rw [hm] at h
        have h' : (if g1.length + g2.length + g3.length = 10 then
            some (String.mk ("+1 ".data ++ g1 ++ ['-'] ++ g2 ++ ['-'] ++ g3))
            else none) = some s := h
        by_cases hlen : g1.length + g2.length + g3.length = 10
        · rw [if_pos hlen] at h'
          obtain ⟨hg1l, hg1a, hg2l, hg2a, hg3l, hg3a⟩ := usMatch_groups hm
          obtain ⟨a1, a2, a3, rfl⟩ := exists_len3 g1 hg1l
          obtain ⟨b1, b2, b3, rfl⟩ := exists_len3 g2 hg2l
          obtain ⟨f1, f2, f3, f4, rfl⟩ := exists_len4 g3 hg3l
          simp only [List.all_cons, List.all_nil, Bool.and_eq_true, and_true]
            at hg1a hg2a hg3a
          obtain ⟨ha1, ha2, ha3⟩ := hg1a
          obtain ⟨hb1, hb2, hb3⟩ := hg2a
          obtain ⟨hf1, hf2, hf3, hf4⟩ := hg3a
          have hs := Option.some.inj h'
          subst hs
          simp only [format_phone_number]
          rw [if_neg (by decide), if_pos trivial]
          have hclean : cleanNumber (String.mk ("+1 ".data ++ [a1, a2, a3] ++ ['-'] ++
              [b1, b2, b3] ++ ['-'] ++ [f1, f2, f3, f4])).data =
              '+' :: '1' :: a1 :: a2 :: a3 :: b1 :: b2 :: b3 ::
                f1 :: f2 :: f3 :: f4 :: [] := by
            show cleanNumber ('+' :: '1' :: ' ' :: a1 :: a2 :: a3 :: '-' :: b1 :: b2 ::
              b3 :: '-' :: f1 :: f2 :: f3 :: f4 :: []) = _
            simp [cleanNumber, ha1, ha2, ha3, hb1, hb2, hb3, hf1, hf2, hf3, hf4]
          rw [hclean,
            usMatch_canonical a1 a2 a3 b1 b2 b3 f1 f2 f3 f4 ha1 ha2 ha3
              hb1 hb2 hb3 hf1 hf2 hf3 hf4]
          show (if ([a1, a2, a3] : List Char).length + ([b1, b2, b3] : List Char).length +
              ([f1, f2, f3, f4] : List Char).length = 10 then
              some (String.mk ("+1 ".data ++ [a1, a2, a3] ++ ['-'] ++
                [b1, b2, b3] ++ ['-'] ++ [f1, f2, f3, f4]))
            else none) = _
          rw [if_pos (by simp)]
        · rw [if_neg hlen] at h'
          exact absurd h' (by simp)
    · by_cases hDE : cc = "DE"
      · rw [hDE] at h
        rw [format_DE_none p] at h
        exact absurd h (by simp)
      · simp only [format_phone_number] at h
        rw [if_neg hGB, if_neg hUS, if_neg hDE] at h
        exact absurd h (by simp)

/-- C4, witness: a US number, formatted and reformatted. -/
theorem c4_witness :
    format_phone_number "+1 202-555-0173" "US" = some "+1 202-555-0173" :=
  c4_phone_formatting_idempotent "+12025550173" "US" "+1 202-555-0173"
    (by decide) (fun hc => absurd hc (by decide))

end RetailETL
